import Mathlib

/-!
Shallow embedding of the snake game rule engine (`src/snake.py`):
`MoveResult`, `Direction`, `Coordinate` and the `SnakeGame` state machine,
together with proofs of the specified properties.

Random apple placement (`random.choice` over the free cells) is modelled by
an explicit choice oracle `pick : List Coordinate → Coordinate`; a valid
oracle returns an element of any non-empty list it is given, which is the
only property the source relies on.
-/

set_option autoImplicit false

namespace Snake

/-- Result of `SnakeGame.move`, mirroring the `MoveResult` enum. -/
inductive MoveResult
  | OK
  | OVERFLOW
  | COLISION
  deriving DecidableEq, Repr

/-- Source `MoveResult.is_lost`: the source tests membership of `self` in the tuple
`(MoveResult.COLISION, MoveResult.COLISION)` (the literal tuple from line 39,
with `COLISION` repeated). -/
def MoveResult.is_lost (r : MoveResult) : Bool :=
  [MoveResult.COLISION, MoveResult.COLISION].contains r

/-- The four compass directions, mirroring the `Direction` enum. -/
inductive Direction
  | LEFT
  | RIGHT
  | UP
  | DOWN
  deriving DecidableEq, Repr

/-- The `OPPOSITE_DIRECTIONS_MAP` dictionary as a total function. -/
def OPPOSITE_DIRECTIONS_MAP : Direction → Direction
  | Direction.LEFT => Direction.RIGHT
  | Direction.RIGHT => Direction.LEFT
  | Direction.UP => Direction.DOWN
  | Direction.DOWN => Direction.UP

/-- Source `Direction.get_opposite`: lookup in `OPPOSITE_DIRECTIONS_MAP`. -/
def Direction.get_opposite (d : Direction) : Direction :=
  OPPOSITE_DIRECTIONS_MAP d

/-- Source `Direction.is_opposed`: `self.get_opposite() == direction`. -/
def Direction.is_opposed (d other : Direction) : Bool :=
  d.get_opposite == other

/-- A 2-d discrete coordinate, mirroring the `Coordinate` dataclass. -/
structure Coordinate where
  x : Int
  y : Int
  deriving DecidableEq, Repr

/-- Source `Coordinate.totuple`: the pair `(x, y)`. -/
def Coordinate.totuple (c : Coordinate) : Int × Int :=
  (c.x, c.y)

/-- Source `Coordinate.left`: one unit along the negative x-axis. -/
def Coordinate.left (c : Coordinate) : Coordinate :=
  Coordinate.mk (c.x - 1) c.y

/-- Source `Coordinate.right`: one unit along the positive x-axis. -/
def Coordinate.right (c : Coordinate) : Coordinate :=
  Coordinate.mk (c.x + 1) c.y

/-- Source `Coordinate.up`: one unit along the negative y-axis (y grows downward). -/
def Coordinate.up (c : Coordinate) : Coordinate :=
  Coordinate.mk c.x (c.y - 1)

/-- Source `Coordinate.down`: one unit along the positive y-axis. -/
def Coordinate.down (c : Coordinate) : Coordinate :=
  Coordinate.mk c.x (c.y + 1)

/-- Source `Coordinate.overflows`: `Coordinate(self.x % width, self.y % height)`.
Python's `%` on a positive modulus yields a value in `[0, modulus)`, exactly
as `Int.emod` (Lean's `%` on `Int`) does. -/
def Coordinate.overflows (c : Coordinate) (width height : Int) : Coordinate :=
  Coordinate.mk (c.x % width) (c.y % height)

/-- Source `Coordinate.is_outside`: either axis lies outside `[0, extent)`. -/
def Coordinate.is_outside (c : Coordinate) (width height : Int) : Bool :=
  if c.x < 0 ∨ c.x ≥ width then true
  else if c.y < 0 ∨ c.y ≥ height then true
  else false

/-- A dynamically typed Python value, as far as `Coordinate.__eq__` can
observe it: `None`, a `Coordinate`, or some non-`Coordinate` object such as
a tuple, an int or a string. -/
inductive PyValue
  | pyNone
  | pyCoord (c : Coordinate)
  | pyTuple (p : Int × Int)
  | pyInt (n : Int)
  | pyStr (s : String)

/-- Source `Coordinate.__eq__`: `False` against `None`, component comparison (via
`totuple`) against another `Coordinate`, and `raise NotImplementedError()`
(modelled by `Except.error`) against anything else. -/
def Coordinate.pyEq (c : Coordinate) (v : PyValue) : Except Unit Bool :=
  match v with
  | PyValue.pyNone => Except.ok false
  | PyValue.pyCoord d => Except.ok (decide (c.totuple = d.totuple))
  | _ => Except.error ()

/-- The state held by a `SnakeGame` instance. `_all_coordinates` is a pure
function of `_width` and `_height` (both immutable after construction), so it
is embedded as the derived function `SnakeGame.all_coordinates` below rather
than stored. The apple is `Option Coordinate` because `_new_apple` stores
`None` when no free cell exists. -/
structure SnakeGame where
  _width : Int
  _height : Int
  _start_len : Int
  _overflows_allowed : Bool
  _direction : Direction
  _snake : List Coordinate
  _apple : Option Coordinate
  deriving DecidableEq, Repr

/-- The set `{Coordinate(x, y) for x in range(width) for y in range(height)}`
as a duplicate-free list. -/
def SnakeGame.all_coordinates (g : SnakeGame) : List Coordinate :=
  (List.range g._width.toNat).flatMap (fun x =>
    (List.range g._height.toNat).map (fun y =>
      Coordinate.mk (Int.ofNat x) (Int.ofNat y)))

/-- Source `SnakeGame._get_free_coordinates`: every board cell that holds no part of
the snake's body. -/
def SnakeGame.free_coordinates (g : SnakeGame) : List Coordinate :=
  g.all_coordinates.filter (fun c => decide (c ∉ g._snake))

/-- Source `SnakeGame._get_random_free_coordinate`: `None` when no free cell exists,
otherwise a cell chosen by the random oracle from the free cells. -/
def SnakeGame.get_random_free_coordinate
    (pick : List Coordinate → Coordinate) (g : SnakeGame) : Option Coordinate :=
  if g.free_coordinates.isEmpty then none
  else some (pick g.free_coordinates)

/-- Source `SnakeGame._new_apple`: stores a fresh random free coordinate in
`_apple`. -/
def SnakeGame.new_apple (pick : List Coordinate → Coordinate) (g : SnakeGame) :
    SnakeGame :=
  { g with _apple := g.get_random_free_coordinate pick }

/-- Source `SnakeGame.__init__(width, height, start_len, overflows_allowed)`: seeds
the body with `Coordinate(i, 0) for i in range(start_len)`, direction RIGHT,
then places the first apple. -/
def SnakeGame.init (pick : List Coordinate → Coordinate)
    (width height start_len : Int) (overflows_allowed : Bool) : SnakeGame :=
  SnakeGame.new_apple pick
    { _width := width
      _height := height
      _start_len := start_len
      _overflows_allowed := overflows_allowed
      _direction := Direction.RIGHT
      _snake := (List.range start_len.toNat).map
        (fun i => Coordinate.mk (Int.ofNat i) 0)
      _apple := none }

/-- Source `SnakeGame.head`: `self._snake[-1]` (the source indexes a non-empty
list; the default value is never reached on such states). -/
def SnakeGame.head (g : SnakeGame) : Coordinate :=
  g._snake.getLastD (Coordinate.mk 0 0)

/-- Source `SnakeGame.tail`: `self._snake[0]`. -/
def SnakeGame.tail (g : SnakeGame) : Coordinate :=
  g._snake.headD (Coordinate.mk 0 0)

/-- Source `SnakeGame.score`: `len(self._snake) - self._start_len`. -/
def SnakeGame.score (g : SnakeGame) : Int :=
  (g._snake.length : Int) - g._start_len

/-- Source `SnakeGame._next_coord`: the head shifted one unit per the active
direction. -/
def SnakeGame.next_coord (g : SnakeGame) : Coordinate :=
  match g._direction with
  | Direction.LEFT => g.head.left
  | Direction.RIGHT => g.head.right
  | Direction.UP => g.head.up
  | Direction.DOWN => g.head.down

/-- Source `SnakeGame.set_direction`: ignored when the requested direction is the
opposite of the active one, otherwise committed. -/
def SnakeGame.set_direction (g : SnakeGame) (direction : Direction) :
    SnakeGame :=
  if g._direction.is_opposed direction then g
  else { g with _direction := direction }

/-- The coordinate `move` works with after the overflow step: the raw next
coordinate, wrapped when it fell outside the board (in the branch of `move`
that consults it, wrapping happens exactly when overflow is allowed). -/
def SnakeGame.movedCoord (g : SnakeGame) : Coordinate :=
  if g.next_coord.is_outside g._width g._height then
    g.next_coord.overflows g._width g._height
  else g.next_coord

/-- The candidate head coordinate "after wrapping when applicable": wrapped
exactly when it is out of bounds and the game allows overflowing (when
overflow is forbidden no wrapping is applicable and the raw out-of-bounds
coordinate is the candidate). -/
def SnakeGame.candidate (g : SnakeGame) : Coordinate :=
  if g.next_coord.is_outside g._width g._height ∧ g._overflows_allowed then
    g.next_coord.overflows g._width g._height
  else g.next_coord

/-- Source `SnakeGame.move`: one tick of the state machine. Returns OVERFLOW when
the next coordinate leaves a non-wrapping board, COLISION when the (possibly
wrapped) coordinate hits the body anywhere but the tail, and otherwise OK
after appending the new head and either growing (apple eaten: tail kept, new
apple placed) or popping the tail. -/
def SnakeGame.move (pick : List Coordinate → Coordinate) (g : SnakeGame) :
    MoveResult × SnakeGame :=
  if g.next_coord.is_outside g._width g._height ∧ ¬ g._overflows_allowed then
    (MoveResult.OVERFLOW, g)
  else if g.movedCoord ≠ g.tail ∧ g.movedCoord ∈ g._snake then
    (MoveResult.COLISION, g)
  else if g._apple = some g.movedCoord then
    (MoveResult.OK,
      SnakeGame.new_apple pick { g with _snake := g._snake ++ [g.movedCoord] })
  else
    (MoveResult.OK, { g with _snake := (g._snake ++ [g.movedCoord]).drop 1 })

/-- A valid random oracle returns an element of any non-empty list: the only
property the source's `random.choice` is relied on for. -/
def ValidPick (pick : List Coordinate → Coordinate) : Prop :=
  ∀ l : List Coordinate, l ≠ [] → pick l ∈ l

/-- A deterministic stand-in oracle: the first free cell. -/
def pickD : List Coordinate → Coordinate :=
  fun l => l.headD (Coordinate.mk 0 0)

/-- States reachable from a constructor call with `width ≥ 1`, `height ≥ 1`
and `1 ≤ start_length ≤ width` by any sequence of `set_direction` and `move`
calls, each `move` using an arbitrary valid random oracle. -/
inductive Reachable : SnakeGame → Prop
  | init (pick : List Coordinate → Coordinate) (w h sl : Int) (ov : Bool) :
      ValidPick pick → 1 ≤ w → 1 ≤ h → 1 ≤ sl → sl ≤ w →
      Reachable (SnakeGame.init pick w h sl ov)
  | set_dir (g : SnakeGame) (d : Direction) :
      Reachable g → Reachable (g.set_direction d)
  | step (g : SnakeGame) (pick : List Coordinate → Coordinate) :
      ValidPick pick → Reachable g → Reachable (SnakeGame.move pick g).2

/-- The body/apple well-formedness invariant: no duplicate body coordinate,
and the apple (when present) coincides with no body coordinate. -/
def GoodState (g : SnakeGame) : Prop :=
  g._snake.Nodup ∧ ∀ a : Coordinate, g._apple = some a → a ∉ g._snake

/-- Every body coordinate lies inside the board. -/
def SnakeGame.bodyInBounds (g : SnakeGame) : Prop :=
  ∀ c ∈ g._snake, c.is_outside g._width g._height = false

instance (g : SnakeGame) : Decidable g.bodyInBounds :=
  inferInstanceAs
    (Decidable (∀ c ∈ g._snake, c.is_outside g._width g._height = false))

/-- A state that provokes OVERFLOW: a 1×1 wall-bounded board with the snake
on its only cell, heading RIGHT. -/
def gOver : SnakeGame :=
  { _width := 1
    _height := 1
    _start_len := 1
    _overflows_allowed := false
    _direction := Direction.RIGHT
    _snake := [Coordinate.mk 0 0]
    _apple := none }

/-- A 5×5 board with the starting body and the apple far away, as in the
spec's Scenario A. -/
def gScenA : SnakeGame :=
  { _width := 5
    _height := 5
    _start_len := 3
    _overflows_allowed := false
    _direction := Direction.RIGHT
    _snake := [Coordinate.mk 0 0, Coordinate.mk 1 0, Coordinate.mk 2 0]
    _apple := some (Coordinate.mk 4 4) }

theorem validPick_pickD : ValidPick pickD := by
  intro l hl
  cases l with
  | nil => exact absurd rfl hl
  | cons a l' => simp [pickD]

theorem mem_free_coordinates (g : SnakeGame) (a : Coordinate)
    (ha : a ∈ g.free_coordinates) : a ∉ g._snake := by
  unfold SnakeGame.free_coordinates at ha
  simpa using (List.mem_filter.mp ha).2

theorem new_apple_apple (pick : List Coordinate → Coordinate)
    (hp : ValidPick pick) (g : SnakeGame) (a : Coordinate)
    (ha : (g.new_apple pick)._apple = some a) : a ∉ g._snake := by
  have ha' : g.get_random_free_coordinate pick = some a := ha
  unfold SnakeGame.get_random_free_coordinate at ha'
  split_ifs at ha' with he
  have hnil : g.free_coordinates ≠ [] := by
    intro hnil
    exact he (by rw [hnil]; rfl)
  have hmem : pick g.free_coordinates ∈ g.free_coordinates := hp _ hnil
  have hae : pick g.free_coordinates = a := Option.some.inj ha'
  rw [← hae]
  exact mem_free_coordinates g _ hmem

/-- Claim C9: `opposite` is a total involution pairing LEFT with RIGHT and UP
with DOWN: `get_opposite` is defined on all four directions and satisfies
`opposite(opposite(d)) = d`. -/
theorem opposite_total_involution :
    Direction.LEFT.get_opposite = Direction.RIGHT ∧
    Direction.RIGHT.get_opposite = Direction.LEFT ∧
    Direction.UP.get_opposite = Direction.DOWN ∧
    Direction.DOWN.get_opposite = Direction.UP ∧
    ∀ d : Direction, d.get_opposite.get_opposite = d := by
  refine ⟨rfl, rfl, rfl, rfl, fun d => ?_⟩
  cases d <;> rfl

/-- Claim C5 (evaluation at the failing input): the source's `is_lost` tests
membership in the tuple `(COLISION, COLISION)`, so it reports `False` for
OVERFLOW even though OVERFLOW is a losing result, while COLISION is the
only result reported as lost. -/
theorem is_lost_eval :
    MoveResult.OVERFLOW.is_lost = false ∧
    MoveResult.COLISION.is_lost = true ∧
    MoveResult.OK.is_lost = false :=
  ⟨rfl, rfl, rfl⟩

/-- Claim C7: `set_direction(d)` leaves the direction unchanged exactly when `d`
is the opposite of the current direction, and otherwise commits `d`; being a
total function it never raises. -/
theorem set_direction_spec (g : SnakeGame) (d : Direction) :
    (g.set_direction d)._direction =
      if g._direction.get_opposite = d then g._direction else d := by
  unfold SnakeGame.set_direction Direction.is_opposed
  by_cases h : g._direction.get_opposite = d
  · simp [h]
  · simp [h]

/-- Claim C8: for any integer coordinate and any extents `width ≥ 1`,
`height ≥ 1`, `overflows` (the wrap operation) lands in
`[0, width) × [0, height)`. -/
theorem overflows_in_bounds (c : Coordinate) (w h : Int)
    (hw : 1 ≤ w) (hh : 1 ≤ h) :
    0 ≤ (c.overflows w h).x ∧ (c.overflows w h).x < w ∧
    0 ≤ (c.overflows w h).y ∧ (c.overflows w h).y < h := by
  unfold Coordinate.overflows
  exact ⟨Int.emod_nonneg c.x (by omega), Int.emod_lt_of_pos c.x (by omega),
    Int.emod_nonneg c.y (by omega), Int.emod_lt_of_pos c.y (by omega)⟩

/-- Witness for `C8` at the coordinate `(-3, 7)` on a `5 × 4` board. -/
theorem overflows_in_bounds_witness :
    (1 : Int) ≤ 5 ∧ (1 : Int) ≤ 4 ∧
    (0 ≤ ((Coordinate.mk (-3) 7).overflows 5 4).x ∧
      ((Coordinate.mk (-3) 7).overflows 5 4).x < 5 ∧
      0 ≤ ((Coordinate.mk (-3) 7).overflows 5 4).y ∧
      ((Coordinate.mk (-3) 7).overflows 5 4).y < 4) :=
  ⟨by decide, by decide,
    overflows_in_bounds (Coordinate.mk (-3) 7) 5 4 (by decide) (by decide)⟩

/-- Claim C10: `Coordinate.__eq__` returns `False` against `None`, compares
component-wise against another `Coordinate`, and raises
`NotImplementedError` (modelled as `Except.error`) against any other value
such as a tuple, an int or a string. -/
theorem coordinate_pyEq_spec :
    (∀ c : Coordinate, c.pyEq PyValue.pyNone = Except.ok false) ∧
    (∀ c d : Coordinate,
      (c.pyEq (PyValue.pyCoord d) = Except.ok true ↔ c.x = d.x ∧ c.y = d.y) ∧
      (c.pyEq (PyValue.pyCoord d) = Except.ok false ↔
        ¬(c.x = d.x ∧ c.y = d.y))) ∧
    (∀ (c : Coordinate) (p : Int × Int),
      c.pyEq (PyValue.pyTuple p) = Except.error ()) ∧
    (∀ (c : Coordinate) (n : Int),
      c.pyEq (PyValue.pyInt n) = Except.error ()) ∧
    (∀ (c : Coordinate) (s : String),
      c.pyEq (PyValue.pyStr s) = Except.error ()) := by
  refine ⟨fun c => rfl, fun c d => ?_, fun c p => rfl, fun c n => rfl,
    fun c s => rfl⟩
  constructor
  · simp [Coordinate.pyEq, Coordinate.totuple, Prod.ext_iff]
  · simp [Coordinate.pyEq, Coordinate.totuple, Prod.ext_iff]

theorem candidate_eq_movedCoord (g : SnakeGame)
    (h : ¬(g.next_coord.is_outside g._width g._height ∧
      ¬ g._overflows_allowed)) :
    g.candidate = g.movedCoord := by
  unfold SnakeGame.candidate SnakeGame.movedCoord
  by_cases ho : g.next_coord.is_outside g._width g._height
  · have ha : g._overflows_allowed := by
      by_contra hna
      exact h ⟨ho, hna⟩
    rw [if_pos ⟨ho, ha⟩, if_pos ho]
  · rw [if_neg (fun hc => ho hc.1), if_neg ho]

/-- Claim C2: `move` is atomic: whenever it returns OVERFLOW or COLISION, the
body, apple, score and direction are unchanged. -/
theorem move_atomic (pick : List Coordinate → Coordinate) (g : SnakeGame)
    (h : (SnakeGame.move pick g).1 = MoveResult.OVERFLOW ∨
      (SnakeGame.move pick g).1 = MoveResult.COLISION) :
    (SnakeGame.move pick g).2._snake = g._snake ∧
    (SnakeGame.move pick g).2._apple = g._apple ∧
    (SnakeGame.move pick g).2.score = g.score ∧
    (SnakeGame.move pick g).2._direction = g._direction := by
  unfold SnakeGame.move at h ⊢
  split_ifs at h ⊢ with h1 h2 h3
  · exact ⟨rfl, rfl, rfl, rfl⟩
  · exact ⟨rfl, rfl, rfl, rfl⟩
  · cases h with
    | inl hr => exact absurd hr (by simp)
    | inr hr => exact absurd hr (by simp)
  · cases h with
    | inl hr => exact absurd hr (by simp)
    | inr hr => exact absurd hr (by simp)

/-- Witness for `C2`: on `gOver` the move overflows and every component is
unchanged. -/
theorem move_atomic_witness :
    ((SnakeGame.move pickD gOver).1 = MoveResult.OVERFLOW ∨
      (SnakeGame.move pickD gOver).1 = MoveResult.COLISION) ∧
    ((SnakeGame.move pickD gOver).2._snake = gOver._snake ∧
      (SnakeGame.move pickD gOver).2._apple = gOver._apple ∧
      (SnakeGame.move pickD gOver).2.score = gOver.score ∧
      (SnakeGame.move pickD gOver).2._direction = gOver._direction) :=
  ⟨Or.inl (by decide), move_atomic pickD gOver (Or.inl (by decide))⟩

/-- Claim C3: on any state whose body lies inside the board, `move` returns
COLISION exactly when the candidate head coordinate (wrapped when wrapping
is applicable) differs from the current tail and occurs in the body; in
particular moving onto the tail cell never yields COLISION. -/
theorem move_colision_iff (pick : List Coordinate → Coordinate)
    (g : SnakeGame) (hb : g.bodyInBounds) :
    ((SnakeGame.move pick g).1 = MoveResult.COLISION ↔
      g.candidate ≠ g.tail ∧ g.candidate ∈ g._snake) ∧
    (g.candidate = g.tail →
      (SnakeGame.move pick g).1 ≠ MoveResult.COLISION) := by
  have main : (SnakeGame.move pick g).1 = MoveResult.COLISION ↔
      g.candidate ≠ g.tail ∧ g.candidate ∈ g._snake := by
    unfold SnakeGame.move
    split_ifs with h1 h2 h3
    · constructor
      · intro hr
        exact absurd hr (by simp)
      · rintro ⟨hne, hmem⟩
        have hcand : g.candidate = g.next_coord := by
          unfold SnakeGame.candidate
          exact if_neg (fun hc => h1.2 hc.2)
        have hout : g.next_coord.is_outside g._width g._height = true := h1.1
        have hin := hb g.candidate hmem
        rw [hcand] at hin
        rw [hin] at hout
        cases hout
    · rw [candidate_eq_movedCoord g h1]
      simp only [true_iff]
      exact h2
    · rw [candidate_eq_movedCoord g h1]
      constructor
      · intro hr
        exact absurd hr (by simp)
      · intro hc
        exact absurd hc h2
    · rw [candidate_eq_movedCoord g h1]
      constructor
      · intro hr
        exact absurd hr (by simp)
      · intro hc
        exact absurd hc h2
  exact ⟨main, fun heq hr => (main.mp hr).1 heq⟩

/-- Witness for `C3` on the Scenario-A state: the candidate `(3, 0)` is not
in the body and the move is not a collision. -/
theorem move_colision_iff_witness :
    gScenA.bodyInBounds ∧
    (((SnakeGame.move pickD gScenA).1 = MoveResult.COLISION ↔
      gScenA.candidate ≠ gScenA.tail ∧ gScenA.candidate ∈ gScenA._snake) ∧
    (gScenA.candidate = gScenA.tail →
      (SnakeGame.move pickD gScenA).1 ≠ MoveResult.COLISION)) :=
  ⟨by decide, move_colision_iff pickD gScenA (by decide)⟩

/-- Claim C6: when `move` returns OK on a state with a non-empty body, the new
head is the moved coordinate; if it equals the pre-call apple the body is
the old body with the new head appended (tail kept) so length and score grow
by exactly 1, and otherwise length and score are unchanged. -/
theorem move_growth (pick : List Coordinate → Coordinate) (g : SnakeGame)
    (hne : g._snake ≠ []) (hok : (SnakeGame.move pick g).1 = MoveResult.OK) :
    (SnakeGame.move pick g).2.head = g.movedCoord ∧
    (g._apple = some g.movedCoord →
      (SnakeGame.move pick g).2._snake = g._snake ++ [g.movedCoord] ∧
      (SnakeGame.move pick g).2._snake.length = g._snake.length + 1 ∧
      (SnakeGame.move pick g).2.score = g.score + 1) ∧
    (g._apple ≠ some g.movedCoord →
      (SnakeGame.move pick g).2._snake.length = g._snake.length ∧
      (SnakeGame.move pick g).2.score = g.score) := by
  unfold SnakeGame.move at hok ⊢
  split_ifs at hok ⊢ with h1 h2 h3
  · -- grow branch
    refine ⟨?_, fun _ => ⟨rfl, ?_, ?_⟩, fun hne' => absurd h3 hne'⟩
    · show (g._snake ++ [g.movedCoord]).getLastD (Coordinate.mk 0 0) =
        g.movedCoord
      exact List.getLastD_concat _ _ _
    · show (g._snake ++ [g.movedCoord]).length = g._snake.length + 1
      simp
    · show ((g._snake ++ [g.movedCoord]).length : Int) - g._start_len =
        ((g._snake.length : Int) - g._start_len) + 1
      simp
      omega
  · -- non-grow branch
    obtain ⟨t, rest, hsn⟩ : ∃ t rest, g._snake = t :: rest := by
      cases hs : g._snake with
      | nil => exact absurd hs hne
      | cons t rest => exact ⟨t, rest, rfl⟩
    refine ⟨?_, fun he => absurd he h3, fun _ => ⟨?_, ?_⟩⟩
    · show ((g._snake ++ [g.movedCoord]).drop 1).getLastD (Coordinate.mk 0 0)
        = g.movedCoord
      rw [hsn]
      exact List.getLastD_concat _ _ _
    · show ((g._snake ++ [g.movedCoord]).drop 1).length = g._snake.length
      rw [hsn]
      simp
    · show (((g._snake ++ [g.movedCoord]).drop 1).length : Int) -
        g._start_len = (g._snake.length : Int) - g._start_len
      rw [hsn]
      simp

/-- Witness for `C6` on the Scenario-A state: a non-eating OK move keeps
length 3 and score 0. -/
theorem move_growth_witness :
    (gScenA._snake ≠ [] ∧
      (SnakeGame.move pickD gScenA).1 = MoveResult.OK) ∧
    ((SnakeGame.move pickD gScenA).2.head = gScenA.movedCoord ∧
    (gScenA._apple = some gScenA.movedCoord →
      (SnakeGame.move pickD gScenA).2._snake =
        gScenA._snake ++ [gScenA.movedCoord] ∧
      (SnakeGame.move pickD gScenA).2._snake.length =
        gScenA._snake.length + 1 ∧
      (SnakeGame.move pickD gScenA).2.score = gScenA.score + 1) ∧
    (gScenA._apple ≠ some gScenA.movedCoord →
      (SnakeGame.move pickD gScenA).2._snake.length =
        gScenA._snake.length ∧
      (SnakeGame.move pickD gScenA).2.score = gScenA.score)) :=
  ⟨⟨by decide, by decide⟩,
    move_growth pickD gScenA (by decide) (by decide)⟩

theorem nodup_append_single {l : List Coordinate} {c : Coordinate}
    (hl : l.Nodup) (hc : c ∉ l) : (l ++ [c]).Nodup := by
  rw [List.nodup_append_comm]
  exact List.nodup_cons.mpr ⟨hc, hl⟩

theorem nodup_shift {t c : Coordinate} {rest : List Coordinate}
    (hn : (t :: rest).Nodup) (hc : c = t ∨ c ∉ t :: rest) :
    (rest ++ [c]).Nodup := by
  rcases List.nodup_cons.mp hn with ⟨ht, hr⟩
  cases hc with
  | inl hct =>
      rw [hct]
      exact nodup_append_single hr ht
  | inr hct =>
      exact nodup_append_single hr
        (fun hmem => hct (List.mem_cons_of_mem _ hmem))

theorem init_good (pick : List Coordinate → Coordinate)
    (hp : ValidPick pick) (w h sl : Int) (ov : Bool) :
    GoodState (SnakeGame.init pick w h sl ov) := by
  constructor
  · show ((List.range sl.toNat).map
      (fun i => Coordinate.mk (Int.ofNat i) 0)).Nodup
    refine List.Nodup.map ?_ (List.nodup_range _)
    intro a b hab
    have := congrArg Coordinate.x hab
    simpa using this
  · intro a ha
    exact new_apple_apple pick hp _ a ha

theorem set_direction_good (g : SnakeGame) (d : Direction)
    (hg : GoodState g) : GoodState (g.set_direction d) := by
  unfold SnakeGame.set_direction
  split_ifs
  · exact hg
  · exact hg

theorem move_good (pick : List Coordinate → Coordinate)
    (hp : ValidPick pick) (g : SnakeGame) (hg : GoodState g) :
    GoodState (SnakeGame.move pick g).2 := by
  unfold SnakeGame.move
  split_ifs with h1 h2 h3
  · exact hg
  · exact hg
  · -- grow: the moved coordinate is the apple, hence not in the body
    constructor
    · show (g._snake ++ [g.movedCoord]).Nodup
      exact nodup_append_single hg.1 (hg.2 _ h3)
    · intro a ha
      exact new_apple_apple pick hp _ a ha
  · -- non-grow: append the head, pop the tail
    have hc : g.movedCoord = g.tail ∨ g.movedCoord ∉ g._snake := by
      by_cases hct : g.movedCoord = g.tail
      · exact Or.inl hct
      · right
        intro hmem
        exact h2 ⟨hct, hmem⟩
    constructor
    · show ((g._snake ++ [g.movedCoord]).drop 1).Nodup
      cases hs : g._snake with
      | nil => simp
      | cons t rest =>
          have hn : (t :: rest).Nodup := by
            rw [← hs]
            exact hg.1
          have htail : g.tail = t := by
            unfold SnakeGame.tail
            rw [hs]
            rfl
          show (rest ++ [g.movedCoord]).Nodup
          refine nodup_shift hn ?_
          cases hc with
          | inl hct => exact Or.inl (htail ▸ hct)
          | inr hct =>
              right
              rw [← hs]
              exact hct
    · intro a ha
      have hga : a ∉ g._snake := hg.2 a ha
      have hac : a ≠ g.movedCoord := by
        intro hae
        apply h3
        rw [← hae]
        exact ha
      intro hmem
      rcases List.mem_append.mp (List.mem_of_mem_drop hmem) with hm | hm
      · exact hga hm
      · exact hac (by simpa using hm)

/-- Claim C1: every state reachable from a constructor call with `width ≥ 1`,
`height ≥ 1` and `1 ≤ start_length ≤ width` by `set_direction` and `move`
calls satisfies `GoodState`: the body has no duplicate coordinate and the
apple never coincides with a body coordinate. -/
theorem reachable_good (g : SnakeGame) (h : Reachable g) : GoodState g := by
  induction h with
  | init pick w hh sl ov hp hw hhh hsl hslw => exact init_good pick hp w hh sl ov
  | set_dir g' d hr ih => exact set_direction_good g' d ih
  | step g' pick hp hr ih => exact move_good pick hp g' ih

/-- Witness for `C1`: the freshly constructed 5×5 game is reachable and
well-formed. -/
theorem reachable_good_witness : GoodState (SnakeGame.init pickD 5 5 3 true) :=
  reachable_good _ (Reachable.init pickD 5 5 3 true validPick_pickD
    (by decide) (by decide) (by decide) (by decide))

/-- Claim C4 (evaluation at the failing input): the constructor performs no
validation: called with `width = 0`, `height = 0`, `start_length = 3` it
silently builds a three-cell body lying outside the empty board (and no
apple) instead of failing with an invalid-configuration error. -/
theorem init_no_validation :
    (SnakeGame.init pickD 0 0 3 true)._snake =
      [Coordinate.mk 0 0, Coordinate.mk 1 0, Coordinate.mk 2 0] ∧
    (SnakeGame.init pickD 0 0 3 true)._apple = none ∧
    ¬ (SnakeGame.init pickD 0 0 3 true).bodyInBounds := by
  refine ⟨by decide, by decide, by decide⟩

end Snake
